import Mathlib

/-!
Verification development for `todo-collector.py`: a script that walks a
directory tree for markdown files and collects checkbox-style TODO lines
assigned to a given person.  The Python source is shallowly embedded below:
strings are modelled as `List Char` (Python `str` slicing becomes
`List.take` / `List.drop`), the file system is an explicit record of
functions, the generator `get_markdown_files` becomes a fuel-indexed
recursion returning the yielded paths together with a flag recording
whether it stopped because of an error, and `main` becomes a function from
that model to an exit code and the list of report lines.
-/

namespace TodoCollector

/-- Model of the `Todo` class: one discovered task.  Field names follow the
Python class (`done`, `who`, `what`, `file`). -/
structure Todo where
  done : Bool
  who : List Char
  what : List Char
  file : String
deriving DecidableEq, Repr

/-- Python `line.find(c)`: index of the first occurrence of `c`, `none`
standing for Python's `-1`. -/
def strFind (c : Char) : List Char → Option Nat
  | [] => none
  | x :: xs => if x = c then some 0 else (strFind c xs).map (· + 1)

/-- Whitespace characters stripped by Python `str.strip()` (the ASCII ones,
which are the only ones this input format produces). -/
def isPySpace (c : Char) : Bool :=
  c = ' ' || c = '\t' || c = '\n' || c = '\r' || c = '\x0b' || c = '\x0c'

/-- Python `line.strip()`: drop leading and trailing whitespace. -/
def strip (l : List Char) : List Char :=
  ((l.dropWhile isPySpace).reverse.dropWhile isPySpace).reverse

/-- The literal `"- ["` tested by `line[:3] == "- ["`. -/
def prefixChars : List Char := ['-', ' ', '[']

/-- The literal `"x] ["` tested by `line[:4] == "x] ["`. -/
def markDone : List Char := ['x', ']', ' ', '[']

/-- The literal `" ] ["` tested by `line[:4] == " ] ["`. -/
def markOpen : List Char := [' ', ']', ' ', '[']

/-- The name-fetching tail of the loop body of `analyze_todos_in_file`
(lines 200-209 of the source): find the first `]`, take the text before it
as `name`, and build a `Todo` from the rest exactly when `name == who`. -/
def fetchName (done : Bool) (l : List Char) (who : List Char) (path : String) :
    Option Todo :=
  match strFind ']' l with
  | some pos =>
      if l.take pos = who then
        some ⟨done, l.take pos, strip (l.drop (pos + 1)), path⟩
      else none
  | none => none

/-- The loop body of `analyze_todos_in_file` applied to one line: the
`"- ["` test, the two checkbox-marker tests (note that when neither marker
matches the code falls through to the name fetch with `done = False`; there
is no skip), then `fetchName`. -/
def parseLine (line : List Char) (who : List Char) (path : String) : Option Todo :=
  if line.length ≥ 3 ∧ line.take 3 = prefixChars then
    if (line.drop 3).length ≥ 4 ∧ (line.drop 3).take 4 = markDone then
      fetchName true ((line.drop 3).drop 4) who path
    else if (line.drop 3).length ≥ 4 ∧ (line.drop 3).take 4 = markOpen then
      fetchName false ((line.drop 3).drop 4) who path
    else
      fetchName false (line.drop 3) who path
  else none

/-- Python `readlines()`: split the content after every newline, keeping
the newline; a final chunk without a newline is still a line. -/
def readlinesAux : List Char → List Char → List (List Char)
  | [], [] => []
  | [], acc => [acc.reverse]
  | c :: rest, acc =>
      if c = '\n' then (acc.reverse ++ ['\n']) :: readlinesAux rest []
      else readlinesAux rest (c :: acc)

/-- Python `h.readlines()` on the whole file content. -/
def readlines (content : List Char) : List (List Char) :=
  readlinesAux content []

/-- `analyze_todos_in_file` with the file content supplied directly: each
line contributes at most one `Todo`, in line order. -/
def analyze_todos_in_file (content : List Char) (who : List Char) (path : String) :
    List Todo :=
  (readlines content).filterMap (fun line => parseLine line who path)

/-- Model of the operating-system surface the script touches.  `canon` is
`os.path.abspath` (with `none` standing for the `IOError` the code guards
against), `listDir` is `os.listdir` (`none` = `IOError`), and `content` is
the text `open(path).readlines` would see (`.error e` = an `IOError` whose
`errno` is `e`). -/
structure FileSystem where
  canon : String → Option String
  isFile : String → Bool
  isDir : String → Bool
  listDir : String → Option (List String)
  content : String → Except Nat String

/-- Python `os.path.join(p, entry)` for the bare names `os.listdir`
returns. -/
def pathJoin (p entry : String) : String := p ++ "/" ++ entry

/-- The test `len(p) >= 3 and p[-3:] == ".md"` on line 157. -/
def endsMd (p : String) : Bool :=
  decide (3 ≤ p.data.length) && (p.data.drop (p.data.length - 3) == ".md".data)

/-- The first loop of `get_markdown_files`: canonicalize every excluded
path; a canonicalization failure makes the whole generator stop before
yielding anything (`return None`), modelled by `none`. -/
def canonExcludes (fs : FileSystem) : List String → Option (List String)
  | [] => some []
  | e :: es =>
    match fs.canon e with
    | none => none
    | some ce => (canonExcludes fs es).map (ce :: ·)

/-- The `while len(todo) > 0` loop of `get_markdown_files`.  The work list
is kept top-first (Python pops from the right end and appends children at
the right end, so the last listed child is popped first).  The result is
the list of yielded paths in yield order, paired with `false` exactly when
the loop stopped through one of its `return None` error exits (failed
canonicalization, failed directory listing, or a path that is neither file
nor directory); fuel exhaustion returns what was yielded so far with
`true`. -/
def genStep (fs : FileSystem) (aexclude : List String) :
    Nat → List String → List String → List String × Bool
  | 0, _, acc => (acc.reverse, true)
  | _ + 1, [], acc => (acc.reverse, true)
  | fuel + 1, p :: stack, acc =>
    match fs.canon p with
    | none => (acc.reverse, false)
    | some cp =>
      if cp ∈ aexclude then genStep fs aexclude fuel stack acc
      else if fs.isFile p then
        genStep fs aexclude fuel stack (if endsMd p then p :: acc else acc)
      else if fs.isDir p then
        match fs.listDir p with
        | some entries =>
            genStep fs aexclude fuel
              ((entries.map (pathJoin p)).reverse ++ stack) acc
        | none => (acc.reverse, false)
      else (acc.reverse, false)

/-- `get_markdown_files(path, exclude)`: the sequence of yielded paths and
whether the generator finished without hitting an error exit. -/
def get_markdown_files (fs : FileSystem) (path : String) (exclude : List String)
    (fuel : Nat) : List String × Bool :=
  match canonExcludes fs exclude with
  | none => ([], false)
  | some aex => genStep fs aex fuel [path] []

/-- One report line, from the f-string on line 260 of the source. -/
def render (t : Todo) : List Char :=
  "- [".data ++ (if t.done then ['x'] else [' ']) ++ "] [".data ++ t.who ++
    "] ".data ++ t.what ++ " (".data ++ t.file.data ++ ")\n".data

/-- The output loop of `main`: entries with `skip_done and todo.done` are
skipped, every other entry is written with `render`. -/
def reportLines (todos : List Todo) (skipDone : Bool) : List (List Char) :=
  (todos.filter (fun t => !(skipDone && t.done))).map render

/-- The analysis loop of `main` (lines 240-246): read each discovered file
in order, accumulating its todos; the first read failure aborts with its
`errno`. -/
def collectTodos (fs : FileSystem) (who : List Char) :
    List String → Except Nat (List Todo)
  | [] => .ok []
  | f :: rest =>
    match fs.content f with
    | .error e => .error e
    | .ok c =>
      match collectTodos fs who rest with
      | .error e => .error e
      | .ok ts => .ok (analyze_todos_in_file c.data who f ++ ts)

/-- `main(path, output, exclude, who, skip_done)` writing to stdout:
returns the exit code and the report lines written.  Note that `main`
iterates the generator with a plain `for` loop, so the generator's error
exits are invisible to it: it serializes whatever was yielded and returns
`0`. -/
def main (fs : FileSystem) (path : String) (exclude : List String)
    (who : List Char) (skipDone : Bool) (fuel : Nat) :
    Nat × List (List Char) :=
  let files := (get_markdown_files fs path exclude fuel).1
  match collectTodos fs who files with
  | .error e => (e, [])
  | .ok todos => (0, reportLines todos skipDone)

/-- A tiny concrete file system: a directory `root` holding the markdown
file `root/a.md` and a non-markdown file `root/b.txt`. -/
def fsW : FileSystem where
  canon := fun p => some p
  isFile := fun p => p == "root/a.md" || p == "root/b.txt"
  isDir := fun p => p == "root"
  listDir := fun p => if p == "root" then some ["a.md", "b.txt"] else none
  content := fun p =>
    if p == "root/a.md" then .ok "- [x] [Alice] Buy milk\n" else .error 2

/-- A file system whose root path is neither a file nor a directory (a
broken symlink, say): traversal hits the final `perror` + `return None`
branch. -/
def fsBad : FileSystem where
  canon := fun p => some p
  isFile := fun _ => false
  isDir := fun _ => false
  listDir := fun _ => none
  content := fun _ => .error 5

/-- The paths the traversal loop can legitimately construct: the starting
path itself, and `parent/child` for every listed child of a reachable,
non-excluded directory.  A directory whose canonical form is excluded
never satisfies the side conditions of `child`, so nothing beneath it is
reachable through it. -/
inductive Reach (fs : FileSystem) (aex : List String) (root : String) : String → Prop
  | root : Reach fs aex root root
  | child {p : String} (c : String) {entries : List String} :
      Reach fs aex root p →
      (∃ cp, fs.canon p = some cp ∧ cp ∉ aex) →
      fs.isDir p = true →
      fs.listDir p = some entries →
      c ∈ entries →
      Reach fs aex root (pathJoin p c)

/-- Everything `genStep` ever yields: a regular file, ending in `.md`,
reachable through non-excluded directories, and itself not excluded. -/
def GoodFile (fs : FileSystem) (aex : List String) (root f : String) : Prop :=
  fs.isFile f = true ∧ endsMd f = true ∧ Reach fs aex root f ∧
    ∃ cf, fs.canon f = some cf ∧ cf ∉ aex

/-! ### Helper lemmas -/

lemma strFind_eq_none_of_not_mem {c : Char} {l : List Char} (h : c ∉ l) :
    strFind c l = none := by
  induction l with
  | nil => rfl
  | cons x xs ih =>
      simp only [List.mem_cons, not_or] at h
      simp [strFind, Ne.symm h.1, ih h.2]

lemma strFind_not_mem_take {c : Char} :
    ∀ {l : List Char} {pos : Nat}, strFind c l = some pos → c ∉ l.take pos := by
  intro l
  induction l with
  | nil => intro pos h; simp [strFind] at h
  | cons x xs ih =>
      intro pos h
      by_cases hx : x = c
      · simp [strFind, hx] at h
        simp [← h]
      · simp only [strFind, if_neg hx, Option.map_eq_some'] at h
        obtain ⟨q, hq, hpos⟩ := h
        subst hpos
        simp only [List.take_succ_cons, List.mem_cons, not_or]
        exact ⟨fun hcx => hx hcx.symm, ih hq⟩

lemma fetchName_who {d : Bool} {l who : List Char} {path : String} {t : Todo}
    (h : fetchName d l who path = some t) : t.who = who := by
  unfold fetchName at h
  split at h
  · split at h
    · rename_i pos _ hname
      cases h
      exact hname
    · exact absurd h (by simp)
  · exact absurd h (by simp)

lemma fetchName_eq_none_of_bracket {d : Bool} {l who : List Char} {path : String}
    (h : ']' ∈ who) : fetchName d l who path = none := by
  unfold fetchName
  split
  · rename_i pos hpos
    have hnot : ']' ∉ l.take pos := strFind_not_mem_take hpos
    rw [if_neg]
    intro heq
    exact hnot (heq ▸ h)
  · rfl

lemma parseLine_who {line who : List Char} {path : String} {t : Todo}
    (h : parseLine line who path = some t) : t.who = who := by
  unfold parseLine at h
  split at h
  · split at h
    · exact fetchName_who h
    · split at h
      · exact fetchName_who h
      · exact fetchName_who h
  · exact absurd h (by simp)

lemma parseLine_eq_none_of_bracket {line who : List Char} {path : String}
    (h : ']' ∈ who) : parseLine line who path = none := by
  unfold parseLine
  split
  · split
    · exact fetchName_eq_none_of_bracket h
    · split
      · exact fetchName_eq_none_of_bracket h
      · exact fetchName_eq_none_of_bracket h
  · rfl

lemma render_take_five {t : Todo} (h : t.done = false) :
    (render t).take 5 = ['-', ' ', '[', ' ', ']'] := by
  unfold render
  rw [h]
  rfl

lemma genStep_good (fs : FileSystem) (aex : List String) (root : String) :
    ∀ (fuel : Nat) (stack acc : List String),
      (∀ p ∈ stack, Reach fs aex root p) →
      (∀ g ∈ acc, GoodFile fs aex root g) →
      ∀ f ∈ (genStep fs aex fuel stack acc).1, GoodFile fs aex root f := by
  intro fuel
  induction fuel with
  | zero =>
      intro stack acc _ hacc f hf
      simp only [genStep, List.mem_reverse] at hf
      exact hacc f hf
  | succ n ih =>
      intro stack acc hstack hacc f hf
      cases stack with
      | nil =>
          simp only [genStep, List.mem_reverse] at hf
          exact hacc f hf
      | cons p stack' =>
          simp only [genStep] at hf
          split at hf
          · rw [List.mem_reverse] at hf
            exact hacc f hf
          · rename_i cp hcanon
            split at hf
            · exact ih stack' acc (fun q hq => hstack q (List.mem_cons_of_mem _ hq))
                hacc f hf
            · rename_i hex
              split at hf
              · rename_i hfile
                refine ih stack' _
                  (fun q hq => hstack q (List.mem_cons_of_mem _ hq)) ?_ f hf
                intro g hg
                split at hg
                · rename_i hmd
                  rcases List.mem_cons.mp hg with rfl | hg'
                  · exact ⟨hfile, hmd, hstack g (List.mem_cons_self g stack'),
                      cp, hcanon, hex⟩
                  · exact hacc g hg'
                · exact hacc g hg
              · rename_i hfile
                split at hf
                · rename_i hdir
                  split at hf
                  · rename_i entries hlist
                    refine ih _ acc ?_ hacc f hf
                    intro q hq
                    rcases List.mem_append.mp hq with hq | hq
                    · rw [List.mem_reverse] at hq
                      rcases List.mem_map.mp hq with ⟨c, hc, rfl⟩
                      exact Reach.child c (hstack p (List.mem_cons_self p stack'))
                        ⟨cp, hcanon, hex⟩ hdir hlist hc
                    · exact hstack q (List.mem_cons_of_mem _ hq)
                  · rw [List.mem_reverse] at hf
                    exact hacc f hf
                · rw [List.mem_reverse] at hf
                  exact hacc f hf

/-! ### Extractor claims -/

/-- C8: every `Todo` the extractor returns has its `who` field exactly equal
to the target assignee used for that extraction; lines whose parsed name
differs from the target are never stored. -/
theorem c8_who_equals_target (content who : List Char) (path : String) (t : Todo)
    (h : t ∈ analyze_todos_in_file content who path) : t.who = who := by
  unfold analyze_todos_in_file at h
  rw [List.mem_filterMap] at h
  obtain ⟨line, _, hline⟩ := h
  exact parseLine_who hline

/-- Witness for C8 at a concrete file content and target. -/
theorem c8_who_equals_target_witness :
    (⟨true, "Alice".data, "Buy milk".data, "a.md"⟩ : Todo) ∈
        analyze_todos_in_file ("- [x] [Alice] Buy milk\n".data) ("Alice".data) "a.md" ∧
      (⟨true, "Alice".data, "Buy milk".data, "a.md"⟩ : Todo).who = "Alice".data :=
  ⟨by decide,
   c8_who_equals_target ("- [x] [Alice] Buy milk\n".data) ("Alice".data) "a.md"
     ⟨true, "Alice".data, "Buy milk".data, "a.md"⟩ (by decide)⟩

/-- C10: when the target assignee contains a `]` character the extractor
returns the empty list for every file content, because a parsed name is the
text strictly before the first `]` and hence never contains `]`. -/
theorem c10_bracket_target_empty (content who : List Char) (path : String)
    (h : ']' ∈ who) : analyze_todos_in_file content who path = [] := by
  unfold analyze_todos_in_file
  rw [List.filterMap_eq_nil_iff]
  intro line _
  exact parseLine_eq_none_of_bracket h

/-- Witness for C10 at a concrete content whose text even contains the
target verbatim. -/
theorem c10_bracket_target_empty_witness :
    ']' ∈ "A]B".data ∧
      analyze_todos_in_file ("- [x] [A]B] buy\n".data) ("A]B".data) "a.md" = [] :=
  ⟨by decide,
   c10_bracket_target_empty ("- [x] [A]B] buy\n".data) ("A]B".data) "a.md" (by decide)⟩

/-- C1 counterexample: a line that begins with `"- ["` but is followed by
neither `"x] ["` nor `" ] ["` is not skipped — with target `"Alice"` the
line `"- [Alice] Buy milk\n"` produces a `Todo`, because the code falls
through to the name fetch when no checkbox marker matches. -/
theorem c1_counterexample :
    analyze_todos_in_file ("- [Alice] Buy milk\n".data) ("Alice".data) "notes.md" =
        [⟨false, "Alice".data, "Buy milk".data, "notes.md"⟩] ∧
      analyze_todos_in_file ("- [Alice] Buy milk\n".data) ("Alice".data) "notes.md" ≠
        [] := by
  decide

/-- C1 amended: on a line beginning with `"- ["` where neither `"x] ["` nor
`" ] ["` follows, the extractor does not skip; it proceeds to the
name-fetching stage on the text after `"- ["` with `done = false`, so the
line yields a `Todo` exactly when the text before its first `]` equals the
target. -/
theorem c1_fallthrough_parses_name (rest who : List Char) (path : String)
    (hx : ¬(rest.length ≥ 4 ∧ rest.take 4 = markDone))
    (ho : ¬(rest.length ≥ 4 ∧ rest.take 4 = markOpen)) :
    parseLine (prefixChars ++ rest) who path = fetchName false rest who path := by
  have h1 : (prefixChars ++ rest).length ≥ 3 := by simp [prefixChars]
  have h2 : (prefixChars ++ rest).take 3 = prefixChars := rfl
  have h3 : (prefixChars ++ rest).drop 3 = rest := rfl
  unfold parseLine
  rw [if_pos ⟨h1, h2⟩, h3, if_neg hx, if_neg ho]

/-- Witness for the amended C1 at the counterexample's line. -/
theorem c1_fallthrough_witness :
    ¬(("Alice] Buy milk\n".data).length ≥ 4 ∧
        ("Alice] Buy milk\n".data).take 4 = markDone) ∧
      ¬(("Alice] Buy milk\n".data).length ≥ 4 ∧
        ("Alice] Buy milk\n".data).take 4 = markOpen) ∧
      parseLine (prefixChars ++ "Alice] Buy milk\n".data) ("Alice".data) "notes.md" =
        fetchName false ("Alice] Buy milk\n".data) ("Alice".data) "notes.md" :=
  ⟨by decide, by decide,
   c1_fallthrough_parses_name ("Alice] Buy milk\n".data) ("Alice".data) "notes.md"
     (by decide) (by decide)⟩

/-- C5: on the single line `"- [x] [Alice] Buy milk\n"` the extractor with
target `"Alice"` returns exactly one `Todo` with `done = true`,
`who = "Alice"`, `what = "Buy milk"` and the file's path as source, and
with any other target it returns the empty list. -/
theorem c5_alice_line (path : String) (who : List Char) :
    analyze_todos_in_file ("- [x] [Alice] Buy milk\n".data) ("Alice".data) path =
        [⟨true, "Alice".data, "Buy milk".data, path⟩] ∧
      (who ≠ "Alice".data →
        analyze_todos_in_file ("- [x] [Alice] Buy milk\n".data) who path = []) := by
  constructor
  · rfl
  · intro hwho
    have hkey : parseLine ("- [x] [Alice] Buy milk\n".data) who path =
        if "Alice".data = who then
          some ⟨true, "Alice".data, "Buy milk".data, path⟩
        else none := rfl
    have hnone : parseLine ("- [x] [Alice] Buy milk\n".data) who path = none := by
      rw [hkey, if_neg (fun h => hwho h.symm)]
    have hrl : readlines ("- [x] [Alice] Buy milk\n".data) =
        [("- [x] [Alice] Buy milk\n".data)] := rfl
    unfold analyze_todos_in_file
    rw [hrl]
    simp [hnone]

/-- Witness for C5 with the non-matching target `"Bob"`. -/
theorem c5_alice_line_witness :
    analyze_todos_in_file ("- [x] [Alice] Buy milk\n".data) ("Alice".data) "a.md" =
        [⟨true, "Alice".data, "Buy milk".data, "a.md"⟩] ∧
      "Bob".data ≠ "Alice".data ∧
      analyze_todos_in_file ("- [x] [Alice] Buy milk\n".data) ("Bob".data) "a.md" = [] :=
  ⟨(c5_alice_line "a.md" ("Bob".data)).1, by decide,
   (c5_alice_line "a.md" ("Bob".data)).2 (by decide)⟩

/-- C6: when a checkbox marker (`"x] ["` or `" ] ["`) was consumed but the
remainder of the line contains no closing `]`, the extractor produces no
`Todo` for that line. -/
theorem c6_no_closing_bracket (m rest who : List Char) (path : String)
    (hm : m = markDone ∨ m = markOpen) (hr : ']' ∉ rest) :
    parseLine (prefixChars ++ (m ++ rest)) who path = none := by
  have hnone : ∀ d : Bool, fetchName d rest who path = none := by
    intro d
    unfold fetchName
    rw [strFind_eq_none_of_not_mem hr]
  rcases hm with hm | hm <;> subst hm
  · have h1 : (prefixChars ++ (markDone ++ rest)).length ≥ 3 := by
      simp [prefixChars, markDone]
    have h2 : (prefixChars ++ (markDone ++ rest)).take 3 = prefixChars := rfl
    have h3 : (prefixChars ++ (markDone ++ rest)).drop 3 = markDone ++ rest := rfl
    have h4 : (markDone ++ rest).length ≥ 4 := by simp [markDone]
    have h5 : (markDone ++ rest).take 4 = markDone := rfl
    have h6 : (markDone ++ rest).drop 4 = rest := rfl
    unfold parseLine
    rw [if_pos ⟨h1, h2⟩, h3, if_pos ⟨h4, h5⟩, h6]
    exact hnone true
  · have h1 : (prefixChars ++ (markOpen ++ rest)).length ≥ 3 := by
      simp [prefixChars, markOpen]
    have h2 : (prefixChars ++ (markOpen ++ rest)).take 3 = prefixChars := rfl
    have h3 : (prefixChars ++ (markOpen ++ rest)).drop 3 = markOpen ++ rest := rfl
    have h4 : (markOpen ++ rest).length ≥ 4 := by simp [markOpen]
    have h5 : (markOpen ++ rest).take 4 = markOpen := rfl
    have h6 : (markOpen ++ rest).drop 4 = rest := rfl
    have hnd : ¬((markOpen ++ rest).length ≥ 4 ∧
        (markOpen ++ rest).take 4 = markDone) := by
      rintro ⟨-, hq⟩
      rw [h5] at hq
      exact absurd hq (by decide)
    unfold parseLine
    rw [if_pos ⟨h1, h2⟩, h3, if_neg hnd, if_pos ⟨h4, h5⟩, h6]
    exact hnone false

/-- Witness for C6 at the spec's own example line
`"- [ ] [Alice unterminated\n"`. -/
theorem c6_no_closing_bracket_witness :
    (markOpen = markDone ∨ markOpen = markOpen) ∧
      ']' ∉ "Alice unterminated\n".data ∧
      parseLine (prefixChars ++ (markOpen ++ "Alice unterminated\n".data))
        ("Alice".data) "a.md" = none :=
  ⟨Or.inr rfl, by decide,
   c6_no_closing_bracket markOpen ("Alice unterminated\n".data) ("Alice".data) "a.md"
     (Or.inr rfl) (by decide)⟩

/-- C9 counterexample: the line `"- [a]\n"` leaves fewer than 4 characters
after the `"- ["` prefix, yet it is not skipped — with target `"a"` it
produces a `Todo`, because the failed checkbox test falls through to the
name fetch. -/
theorem c9_counterexample :
    analyze_todos_in_file ("- [a]\n".data) ("a".data) "notes.md" =
        [⟨false, "a".data, [], "notes.md"⟩] ∧
      analyze_todos_in_file ("- [a]\n".data) ("a".data) "notes.md" ≠ [] := by
  decide

/-- C9 amended: the extractor is total and never errors on short lines.  A
line shorter than 3 characters is skipped; a line whose remainder after
`"- ["` is shorter than 4 characters matches no checkbox marker and
proceeds to the name-fetching stage with `done = false` (it is not
skipped). -/
theorem c9_short_lines (line who : List Char) (path : String) :
    (line.length < 3 → parseLine line who path = none) ∧
      (line.take 3 = prefixChars → (line.drop 3).length < 4 →
        parseLine line who path = fetchName false (line.drop 3) who path) := by
  constructor
  · intro h
    unfold parseLine
    rw [if_neg]
    rintro ⟨h3, -⟩
    omega
  · intro hpre hlen
    have hlen3 : line.length ≥ 3 := by
      have := congrArg List.length hpre
      simp only [List.length_take, prefixChars, List.length_cons,
        List.length_nil] at this
      omega
    unfold parseLine
    rw [if_pos ⟨hlen3, hpre⟩, if_neg (by rintro ⟨h4, -⟩; omega),
      if_neg (by rintro ⟨h4, -⟩; omega)]

/-- Witness for the amended C9: a 2-character line is skipped, and the
line `"- [a]\n"` reaches the name fetch. -/
theorem c9_short_lines_witness :
    (("ab".data).length < 3 ∧ parseLine ("ab".data) ("a".data) "n.md" = none) ∧
      (("- [a]\n".data).take 3 = prefixChars ∧
        (("- [a]\n".data).drop 3).length < 4 ∧
        parseLine ("- [a]\n".data) ("a".data) "n.md" =
          fetchName false (("- [a]\n".data).drop 3) ("a".data) "n.md") :=
  ⟨⟨by decide, (c9_short_lines ("ab".data) ("a".data) "n.md").1 (by decide)⟩,
   ⟨by decide, by decide,
    (c9_short_lines ("- [a]\n".data) ("a".data) "n.md").2 (by decide) (by decide)⟩⟩

/-! ### Driver and traversal claims -/

/-- C7: with the skip-done flag set, the report is exactly the rendering of
the todos whose `done` field is false (done entries are dropped, and only
those), and no report line begins with `"- [x]"`. -/
theorem c7_skip_done_filters (todos : List Todo) :
    reportLines todos true = (todos.filter (fun t => !t.done)).map render ∧
      ∀ s ∈ reportLines todos true, s.take 5 ≠ "- [x]".data := by
  constructor
  · simp [reportLines]
  · intro s hs
    unfold reportLines at hs
    rw [List.mem_map] at hs
    obtain ⟨t, ht, rfl⟩ := hs
    rw [List.mem_filter] at ht
    have hdone : t.done = false := by simpa using ht.2
    rw [render_take_five hdone]
    decide

/-- Witness for C7 on a two-entry list with one done and one open todo. -/
theorem c7_skip_done_filters_witness :
    reportLines
        [⟨true, "A".data, "t1".data, "a.md"⟩, ⟨false, "B".data, "t2".data, "b.md"⟩]
        true =
      (List.filter (fun t => !t.done)
        [⟨true, "A".data, "t1".data, "a.md"⟩,
          ⟨false, "B".data, "t2".data, "b.md"⟩]).map render ∧
    render ⟨false, "B".data, "t2".data, "b.md"⟩ ∈
      reportLines
        [⟨true, "A".data, "t1".data, "a.md"⟩, ⟨false, "B".data, "t2".data, "b.md"⟩]
        true ∧
    (render ⟨false, "B".data, "t2".data, "b.md"⟩).take 5 ≠ "- [x]".data :=
  ⟨(c7_skip_done_filters
      [⟨true, "A".data, "t1".data, "a.md"⟩, ⟨false, "B".data, "t2".data, "b.md"⟩]).1,
   by decide,
   (c7_skip_done_filters
      [⟨true, "A".data, "t1".data, "a.md"⟩, ⟨false, "B".data, "t2".data, "b.md"⟩]).2
     (render ⟨false, "B".data, "t2".data, "b.md"⟩) (by decide)⟩

/-- C3: every file the discoverer yields has a non-excluded canonical form
and is reachable from the root through a chain of non-excluded
directories, so no excluded path and nothing beneath an excluded directory
is ever yielded. -/
theorem c3_exclusions_respected (fs : FileSystem) (path : String)
    (exclude aex : List String) (fuel : Nat) (f : String)
    (hex : canonExcludes fs exclude = some aex)
    (hf : f ∈ (get_markdown_files fs path exclude fuel).1) :
    (∃ cf, fs.canon f = some cf ∧ cf ∉ aex) ∧ Reach fs aex path f := by
  unfold get_markdown_files at hf
  rw [hex] at hf
  have hg := genStep_good fs aex path fuel [path] []
    (by
      intro p hp
      rcases List.mem_singleton.mp hp with rfl
      exact Reach.root)
    (by intro g hg; cases hg) f hf
  exact ⟨hg.2.2.2, hg.2.2.1⟩

/-- Witness for C3 on the concrete file system `fsW`. -/
theorem c3_exclusions_respected_witness :
    canonExcludes fsW [] = some [] ∧
      "root/a.md" ∈ (get_markdown_files fsW "root" [] 5).1 ∧
      ((∃ cf, fsW.canon "root/a.md" = some cf ∧ cf ∉ ([] : List String)) ∧
        Reach fsW [] "root" "root/a.md") :=
  ⟨rfl, by decide,
   c3_exclusions_respected fsW "root" [] [] 5 "root/a.md" rfl (by decide)⟩

/-- C4: every path the discoverer yields is a regular file and ends in
`".md"` (its last three characters are `".md"`); other files are never
yielded. -/
theorem c4_only_markdown_files (fs : FileSystem) (path : String)
    (exclude : List String) (fuel : Nat) (f : String)
    (hf : f ∈ (get_markdown_files fs path exclude fuel).1) :
    fs.isFile f = true ∧ endsMd f = true := by
  unfold get_markdown_files at hf
  cases hex : canonExcludes fs exclude with
  | none =>
      rw [hex] at hf
      exact absurd hf (List.not_mem_nil f)
  | some aex =>
      rw [hex] at hf
      have hg := genStep_good fs aex path fuel [path] []
        (by
          intro p hp
          rcases List.mem_singleton.mp hp with rfl
          exact Reach.root)
        (by intro g hg; cases hg) f hf
      exact ⟨hg.1, hg.2.1⟩

/-- Witness for C4 on the concrete file system `fsW`, which also holds the
non-markdown file `root/b.txt` that is not yielded. -/
theorem c4_only_markdown_files_witness :
    "root/a.md" ∈ (get_markdown_files fsW "root" [] 5).1 ∧
      (fsW.isFile "root/a.md" = true ∧ endsMd "root/a.md" = true) :=
  ⟨by decide, c4_only_markdown_files fsW "root" [] 5 "root/a.md" (by decide)⟩

/-- C2 is a bug in the code: `get_markdown_files` is a generator, so its
`return None` error exits merely end the iteration that `main` drives with
a plain `for` loop.  On a root that is neither a file nor a directory the
traversal stops with an error, yet `main` serializes the empty report and
returns exit code `0` — not the claimed non-zero error code. -/
theorem c2_discovery_error_exits_zero :
    (get_markdown_files fsBad "root" [] 5).2 = false ∧
      main fsBad "root" [] ("Alice".data) false 5 = (0, []) := by decide

end TodoCollector
